import Mathlib

/-!
Verification of the habit-tracker bot (`src/habit.py`) against its
natural-language specification.

Modelling conventions
=====================

* Calendar dates.  The Python code stores dates as ISO `YYYY-MM-DD` strings
  and immediately parses them with `datetime.strptime(d, '%Y-%m-%d').date()`;
  every operation it then performs (equality, ordering, `- timedelta(days=1)`)
  factors through the proleptic-Gregorian day ordinal
  (`datetime.date.toordinal`), which is an order isomorphism onto an interval
  of the integers sending "one day earlier" to "subtract 1".  We therefore
  embed a calendar date as its day ordinal, an `Int`.  "Today"
  (`datetime.now().date()`) is threaded as an explicit parameter.

* The SQLite store.  Tables become lists of rows; `AUTOINCREMENT` surrogate
  keys become explicit `next…Id` counters.  A failed `INSERT` inside
  `try/except sqlite3.IntegrityError` with no intervening `commit` leaves the
  database untouched (the implicit transaction is rolled back on `close`),
  which the model reflects by returning the state unchanged.  Note that the
  connection produced by `sqlite3.connect` never executes
  `PRAGMA foreign_keys = ON`, and SQLite ships with foreign-key enforcement
  disabled; consequently the `ON DELETE CASCADE` clause declared in `init_db`
  is inert at run time and `DELETE FROM habits` leaves the completions table
  untouched.  The model of `delete_habit_from_db` reproduces this actual
  behaviour.

* The Gemini text-generation service is modelled by a single explicit outcome
  (`AIOutcome`): either the generated text or a failure (exception/timeout).
  Each Python function wraps exactly one `model.generate_content` call in one
  `try/except`, so one outcome value per call is a faithful rendering.
-/

/-! ## Streak engine (`calculate_streak`, habit.py lines 136-161) -/

/-- The descending-order relation used by `sorted(..., reverse=True)`. -/
def descRel (a b : Int) : Prop := b ≤ a

instance : DecidableRel descRel := fun a b => Int.decLe b a

instance : IsTotal Int descRel := ⟨fun a b => le_total b a⟩

instance : IsTrans Int descRel := ⟨fun _ _ _ h1 h2 => le_trans h2 h1⟩

instance : IsAntisymm Int descRel := ⟨fun _ _ h1 h2 => le_antisymm h2 h1⟩

/-- `sorted(dates, reverse=True)`: sort a list of day ordinals in descending
order (duplicates are kept, exactly as Python's `sorted` keeps them). -/
def sortDesc (l : List Int) : List Int := l.insertionSort descRel

/-- The `for date in sorted_dates: if date == current_date: streak += 1;
current_date -= timedelta(days=1) else: break` loop of `calculate_streak`:
the number of leading elements matching the chain `c, c-1, c-2, …`. -/
def streakWalk : List Int → Int → Nat
  | [], _ => 0
  | d :: rest, c => if d = c then streakWalk rest (c - 1) + 1 else 0

/-- `calculate_streak(dates)` (habit.py lines 136-161), with `today`
(`datetime.now().date()`) passed explicitly.  Dates are day ordinals. -/
def calculate_streak (dates : List Int) (today : Int) : Nat :=
  if dates.isEmpty then 0
  else
    let sorted_dates := sortDesc dates
    let yesterday := today - 1
    match sorted_dates with
    | [] => 0
    | d0 :: _ =>
      if d0 = today ∨ d0 = yesterday then
        streakWalk sorted_dates (if d0 = today then today else yesterday)
      else 0

/-- Reference streak algorithm, written from the words of spec §4.2 for the
refinement claim: over the *set* of dates, if the set is empty the streak is
0; if the most recent date is neither `today` nor `today - 1` the streak is
0; otherwise the streak is the length of the maximal run of consecutive daily
dates starting from the cursor (`today` if the most recent date is `today`,
else `today - 1`) and walking backwards one day at a time, stopping at the
first gap. -/
def spec_streak (s : Finset Int) (today : Int) : Nat :=
  if h : s.Nonempty then
    let most_recent := s.max' h
    if most_recent = today ∨ most_recent = today - 1 then
      let cursor := if most_recent = today then today else today - 1
      Nat.findGreatest (fun n => ∀ k < n, cursor - (k : Int) ∈ s) s.card
    else 0
  else 0

/-! ## The SQLite store (habit.py lines 34-134)

Rows carry the surrogate `id` produced by `INTEGER PRIMARY KEY AUTOINCREMENT`;
the `DB` state also carries the two autoincrement counters. -/

/-- A row of the `habits` table (`id`, `user_id`, `habit_name`,
`created_date`). -/
structure HabitRow where
  id : Nat
  user_id : Int
  habit_name : String
  created_date : Int
deriving DecidableEq

/-- A row of the `completions` table (`id`, `habit_id`, `completion_date`). -/
structure CompletionRow where
  id : Nat
  habit_id : Nat
  completion_date : Int
deriving DecidableEq

/-- The database state: both tables plus the autoincrement counters. -/
structure DB where
  habits : List HabitRow
  completions : List CompletionRow
  nextHabitId : Nat
  nextCompletionId : Nat
deriving DecidableEq

/-- The `WHERE user_id = ? AND habit_name = ?` predicate. -/
def habitMatches (user_id : Int) (habit_name : String) (h : HabitRow) : Bool :=
  h.user_id == user_id && h.habit_name == habit_name

/-- `get_user_habits` (habit.py lines 68-75): `SELECT id, habit_name,
created_date FROM habits WHERE user_id = ?`, rows in insertion order. -/
def get_user_habits (db : DB) (user_id : Int) : List (Nat × String × Int) :=
  (db.habits.filter (fun h => h.user_id == user_id)).map
    (fun h => (h.id, h.habit_name, h.created_date))

/-- `get_habit_completions` (habit.py lines 77-84): `SELECT completion_date
FROM completions WHERE habit_id = ? ORDER BY completion_date DESC`. -/
def get_habit_completions (db : DB) (habit_id : Nat) : List Int :=
  sortDesc ((db.completions.filter (fun c => c.habit_id == habit_id)).map
    (fun c => c.completion_date))

/-- `add_habit_to_db` (habit.py lines 86-100).  The `INSERT` hits the
`UNIQUE(user_id, habit_name)` constraint exactly when a matching row exists;
the `except sqlite3.IntegrityError` path commits nothing, so the state is
unchanged.  `created_date` is `datetime.now().strftime('%Y-%m-%d')`, i.e. the
`today` parameter. -/
def add_habit_to_db (db : DB) (user_id : Int) (habit_name : String) (today : Int) :
    DB × Bool :=
  if db.habits.any (habitMatches user_id habit_name) then (db, false)
  else
    ({ habits := db.habits ++ [⟨db.nextHabitId, user_id, habit_name, today⟩],
       completions := db.completions,
       nextHabitId := db.nextHabitId + 1,
       nextCompletionId := db.nextCompletionId }, true)

/-- `complete_habit_in_db` (habit.py lines 102-124).  `fetchone` on the habit
lookup resolves to the first matching row; the completion `INSERT` hits the
`UNIQUE(habit_id, completion_date)` constraint exactly when a matching row
exists, and that failure path commits nothing. -/
def complete_habit_in_db (db : DB) (user_id : Int) (habit_name : String) (date : Int) :
    DB × Bool × String :=
  match db.habits.find? (habitMatches user_id habit_name) with
  | none => (db, false, "Habit not found")
  | some h =>
    if db.completions.any (fun c => c.habit_id == h.id && c.completion_date == date) then
      (db, false, "Already completed")
    else
      ({ habits := db.habits,
         completions := db.completions ++ [⟨db.nextCompletionId, h.id, date⟩],
         nextHabitId := db.nextHabitId,
         nextCompletionId := db.nextCompletionId + 1 }, true, "Completed")

/-- `delete_habit_from_db` (habit.py lines 126-134): `DELETE FROM habits
WHERE user_id = ? AND habit_name = ?`, returning `rowcount > 0`.  The
completions table is untouched: the connection never runs
`PRAGMA foreign_keys = ON`, so SQLite does not act on the declared
`ON DELETE CASCADE`. -/
def delete_habit_from_db (db : DB) (user_id : Int) (habit_name : String) :
    DB × Bool :=
  ({ habits := db.habits.filter (fun h => !(habitMatches user_id habit_name h)),
     completions := db.completions,
     nextHabitId := db.nextHabitId,
     nextCompletionId := db.nextCompletionId },
   db.habits.any (habitMatches user_id habit_name))

/-- Observation: a habit named `habit_name` owned by `user_id` exists. -/
def habitExists (db : DB) (user_id : Int) (habit_name : String) : Prop :=
  ∃ h ∈ db.habits, h.user_id = user_id ∧ h.habit_name = habit_name

instance (db : DB) (user_id : Int) (habit_name : String) :
    Decidable (habitExists db user_id habit_name) :=
  decidable_of_iff (∃ h ∈ db.habits, h.user_id = user_id ∧ h.habit_name = habit_name) Iff.rfl

/-- Observation: how many habit rows a user owns. -/
def habitCount (db : DB) (user_id : Int) : Nat :=
  (get_user_habits db user_id).length

/-- Observation: how many completion rows a habit has. -/
def completionCount (db : DB) (habit_id : Nat) : Nat :=
  (db.completions.filter (fun c => c.habit_id == habit_id)).length

/-- Observation: how many completion rows a habit has on one given date. -/
def pairCount (db : DB) (habit_id : Nat) (date : Int) : Nat :=
  (db.completions.filter
    (fun c => c.habit_id == habit_id && c.completion_date == date)).length

/-! ## Statistics (`stats`, habit.py lines 403-437) -/

/-- The aggregation loop of `stats` (habit.py lines 415-424), computed fresh
from the store on every call: `total_completions` accumulates
`len(dates)`, `max_streak` accumulates `max(max_streak, streak)`, and the
habit count is `len(habits)`. -/
def stats_core (db : DB) (user_id : Int) (today : Int) : Nat × Nat × Nat :=
  let habits := get_user_habits db user_id
  let acc := habits.foldl
    (fun (acc : Nat × Nat) hab =>
      let dates := get_habit_completions db hab.1
      (acc.1 + dates.length, max acc.2 (calculate_streak dates today)))
    (0, 0)
  (habits.length, acc.1, acc.2)

/-! ## Text-generation collaborator (habit.py lines 163-238) -/

/-- Outcome of the single `model.generate_content` call a function makes:
either generated text, or any exception (failure, timeout, …). -/
inductive AIOutcome where
  | ok (text : String)
  | failure
deriving DecidableEq

/-- The streak bucket used by the fallback of `generate_motivation`:
2 for `streak >= 7`, 1 for `streak >= 3`, 0 otherwise. -/
def streakBucket (streak : Nat) : Nat :=
  if streak ≥ 7 then 2 else if streak ≥ 3 then 1 else 0

/-- The canned fallback message of `generate_motivation`, as a function of
the bucket (which template) and the streak (interpolated into the text). -/
def motivationFallback (bucket : Nat) (streak : Nat) : String :=
  if bucket = 2 then
    "Incredible! " ++ toString streak ++ " days strong! You\x27re building a real habit here! 🔥"
  else if bucket = 1 then
    "Amazing work! " ++ toString streak ++ " days in a row! Keep this momentum going! 💪"
  else
    "Great job! Every completion counts towards your success! 🎉"

/-- `generate_motivation` (habit.py lines 189-214): on success the generated
text is stripped and returned; on any exception the canned message for the
streak bucket is returned.  No retry: the single service outcome is consumed
once. -/
def generate_motivation (habit_name : String) (streak total_completions : Nat)
    (response : AIOutcome) : String :=
  match response with
  | AIOutcome.ok t => t.trim
  | AIOutcome.failure =>
    if streak ≥ 7 then
      "Incredible! " ++ toString streak ++ " days strong! You\x27re building a real habit here! 🔥"
    else if streak ≥ 3 then
      "Amazing work! " ++ toString streak ++ " days in a row! Keep this momentum going! 💪"
    else
      "Great job! Every completion counts towards your success! 🎉"

/-- The fixed apology of `ai_chat_assistant`. -/
def aiChatApology : String :=
  "I\x27m having trouble getting a response right now. Try a simpler question or try again in a moment!"

/-- `ai_chat_assistant` (habit.py lines 216-238): the habit summary and the
question only shape the prompt of the one service call; on success the
generated text is stripped and returned, on any exception the fixed apology
string is returned. -/
def ai_chat_assistant (user_message habits_summary : String)
    (response : AIOutcome) : String :=
  match response with
  | AIOutcome.ok t => t.trim
  | AIOutcome.failure => aiChatApology

/-! ## The `/addhabit` command handler (`add_habit`, habit.py lines 273-295) -/

/-- The guidance reply of `add_habit` when no habit name was given. -/
def addHabitGuidance : String :=
  "📝 Please specify a habit name.\nExample: `/addhabit Drink water`"

/-- `add_habit` (habit.py lines 273-295), taking `context.args` as the
telegram library delivers it: the message text after the command name split
on runs of whitespace with empty pieces dropped (Python `str.split()`), so
an empty or all-whitespace habit name arrives as the empty argument list.
With no arguments, reply with guidance and touch nothing; otherwise join the
arguments with spaces, strip, and insert through `add_habit_to_db`,
reporting success or the already-exists outcome. -/
def add_habit (db : DB) (user_id : Int) (args : List String) (today : Int) :
    DB × String :=
  if args.isEmpty then
    (db, addHabitGuidance)
  else
    let habit_name := (String.intercalate " " args).trim
    let r := add_habit_to_db db user_id habit_name today
    if r.2 then
      (r.1, "✅ Habit \x27" ++ habit_name ++ "\x27 added successfully!\n\nUse /complete to mark it as done today.")
    else
      (r.1, "⚠️ You already have a habit called \x27" ++ habit_name ++ "\x27!")

/-! ### Streak lemmas -/

theorem sortDesc_perm (l : List Int) : List.Perm (sortDesc l) l :=
  List.perm_insertionSort _ l

theorem sortDesc_sorted (l : List Int) : List.Sorted descRel (sortDesc l) :=
  List.sorted_insertionSort _ l

theorem sortDesc_ne_nil {l : List Int} (h : l ≠ []) : sortDesc l ≠ [] := by
  intro hs
  have hperm := sortDesc_perm l
  rw [hs] at hperm
  exact h hperm.symm.eq_nil

theorem streakWalk_cons_eq (d : Int) (rest : List Int) :
    streakWalk (d :: rest) d = streakWalk rest (d - 1) + 1 := by
  simp [streakWalk]

theorem streakWalk_cons_ne {d c : Int} (rest : List Int) (h : d ≠ c) :
    streakWalk (d :: rest) c = 0 := by
  simp [streakWalk, h]

theorem sortDesc_head_max {l : List Int} {d0 : Int} {rest : List Int}
    (h : sortDesc l = d0 :: rest) : l.maximum = (d0 : WithBot Int) := by
  apply List.maximum_eq_coe_iff.mpr
  constructor
  · exact (sortDesc_perm l).mem_iff.mp (by rw [h]; exact List.mem_cons_self _ _)
  · intro a ha
    have ha' : a ∈ sortDesc l := (sortDesc_perm l).mem_iff.mpr ha
    rw [h] at ha'
    rcases List.mem_cons.mp ha' with rfl | hmem
    · exact le_refl _
    · have hs := sortDesc_sorted l
      rw [h] at hs
      exact List.rel_of_sorted_cons hs a hmem

theorem sortDesc_head_bound {l : List Int} {d0 : Int} {rest : List Int}
    (h : sortDesc l = d0 :: rest) : ∀ x ∈ d0 :: rest, x ≤ d0 := by
  intro x hx
  rcases List.mem_cons.mp hx with rfl | hmem
  · exact le_refl _
  · have hs := sortDesc_sorted l
    rw [h] at hs
    exact List.rel_of_sorted_cons hs x hmem

/-- Every position counted by the walk is a member of the list: the walk
counts the chain `c, c-1, …` while it stays in the list. -/
theorem streakWalk_mem :
    ∀ (xs : List Int) (c : Int) (k : Nat), k < streakWalk xs c → c - (k : Int) ∈ xs
  | [], c, k, h => by simp [streakWalk] at h
  | d :: rest, c, k, h => by
    by_cases hd : d = c
    · subst hd
      cases k with
      | zero => simp
      | succ j =>
        have hj : j < streakWalk rest (d - 1) := by
          rw [streakWalk_cons_eq] at h
          omega
        have hmem := streakWalk_mem rest (d - 1) j hj
        have hcast : d - ((j + 1 : Nat) : Int) = d - 1 - (j : Int) := by
          push_cast
          ring
        rw [hcast]
        exact List.mem_cons_of_mem _ hmem
    · rw [streakWalk_cons_ne rest hd] at h
      omega

/-- The walk never counts more than the number of distinct values present. -/
theorem streakWalk_le_toFinset_card (xs : List Int) (c : Int) :
    streakWalk xs c ≤ xs.toFinset.card := by
  have hmaps : ∀ k ∈ Finset.range (streakWalk xs c), c - (k : Int) ∈ xs.toFinset := by
    intro k hk
    exact List.mem_toFinset.mpr (streakWalk_mem xs c k (Finset.mem_range.mp hk))
  have hinj : Set.InjOn (fun k : Nat => c - (k : Int)) (Finset.range (streakWalk xs c)) := by
    intro k1 _ k2 _ hEq
    simp only at hEq
    omega
  have := Finset.card_le_card_of_injOn (fun k : Nat => c - (k : Int)) hmaps hinj
  simpa using this

/-- On a strictly descending list bounded by the cursor, the walk is maximal:
the day just past the walk is not in the list. -/
theorem streakWalk_stops :
    ∀ (xs : List Int) (c : Int), xs.Pairwise (fun a b => b < a) →
      (∀ x ∈ xs, x ≤ c) → c - (streakWalk xs c : Int) ∉ xs
  | [], _, _, _ => by simp
  | d :: rest, c, hp, hb => by
    by_cases hd : d = c
    · subst hd
      rw [streakWalk_cons_eq]
      have hpr := (List.pairwise_cons.mp hp).1
      have hrest : ∀ x ∈ rest, x ≤ d - 1 := fun x hx => by
        have := hpr x hx
        omega
      have ih := streakWalk_stops rest (d - 1) (List.pairwise_cons.mp hp).2 hrest
      intro hmem
      rcases List.mem_cons.mp hmem with hEq | hmem'
      · omega
      · have hcast : d - ((streakWalk rest (d - 1) + 1 : Nat) : Int)
            = d - 1 - (streakWalk rest (d - 1) : Int) := by
          push_cast
          ring
        rw [hcast] at hmem'
        exact ih hmem'
    · rw [streakWalk_cons_ne rest hd]
      simp only [Nat.cast_zero, sub_zero]
      intro hmem
      rcases List.mem_cons.mp hmem with hEq | hmem'
      · exact hd hEq.symm
      · have := hb c hmem
        have hlt := (List.pairwise_cons.mp hp).1 c hmem'
        have := hb d (List.mem_cons_self _ _)
        omega

/-- When the guard passes, both the code's cursor and the spec's cursor are
just the most recent date itself. -/
theorem cursor_eq_head {d0 t : Int} (h : d0 = t ∨ d0 = t - 1) :
    (if d0 = t then t else t - 1) = d0 := by
  by_cases hd : d0 = t
  · simp [hd]
  · rcases h with h | h
    · exact absurd h hd
    · simp [hd, h.symm]

/-- `calculate_streak` on a non-empty list, rewritten through its sort. -/
theorem calculate_streak_align {l : List Int} {d0 : Int} {rest : List Int} (t : Int)
    (hne : l ≠ []) (hsd : sortDesc l = d0 :: rest) :
    calculate_streak l t =
      (if d0 = t ∨ d0 = t - 1 then streakWalk (d0 :: rest) d0 else 0) := by
  have hemp : ¬ (l.isEmpty = true) := by
    simp [List.isEmpty_iff, hne]
  by_cases hg : d0 = t ∨ d0 = t - 1
  · simp only [calculate_streak, if_neg hemp, hsd, if_pos hg, cursor_eq_head hg]
  · simp only [calculate_streak, if_neg hemp, hsd, if_neg hg]

/-- `spec_streak` on the set of a non-empty list, rewritten through the sort
of the list: the most recent element of the set is the head of the sort. -/
theorem spec_streak_align {l : List Int} {d0 : Int} {rest : List Int} (t : Int)
    (hsd : sortDesc l = d0 :: rest) :
    spec_streak l.toFinset t =
      (if d0 = t ∨ d0 = t - 1 then
        Nat.findGreatest (fun n => ∀ k < n, d0 - (k : Int) ∈ l.toFinset) l.toFinset.card
      else 0) := by
  have hd0l : d0 ∈ l := (sortDesc_perm l).mem_iff.mp (by rw [hsd]; exact List.mem_cons_self _ _)
  have hs : l.toFinset.Nonempty := ⟨d0, List.mem_toFinset.mpr hd0l⟩
  have hmax : l.toFinset.max' hs = d0 := by
    apply le_antisymm
    · apply Finset.max'_le
      intro y hy
      have hy' : y ∈ sortDesc l := (sortDesc_perm l).mem_iff.mpr (List.mem_toFinset.mp hy)
      rw [hsd] at hy'
      exact sortDesc_head_bound hsd y hy'
    · exact Finset.le_max' _ _ (List.mem_toFinset.mpr hd0l)
  by_cases hg : d0 = t ∨ d0 = t - 1
  · simp only [spec_streak, dif_pos hs, hmax, if_pos hg, cursor_eq_head hg]
  · simp only [spec_streak, dif_pos hs, hmax, if_neg hg]

/-- Lower half of the refinement: the code's walk never exceeds the maximal
consecutive run recorded by the spec. -/
theorem streakWalk_le_findGreatest {l : List Int} {d0 : Int} {rest : List Int}
    (hsd : sortDesc l = d0 :: rest) :
    streakWalk (d0 :: rest) d0 ≤
      Nat.findGreatest (fun n => ∀ k < n, d0 - (k : Int) ∈ l.toFinset) l.toFinset.card := by
  have hfin : (d0 :: rest).toFinset = l.toFinset :=
    List.toFinset_eq_of_perm _ _ (by rw [← hsd]; exact sortDesc_perm l)
  apply Nat.le_findGreatest
  · rw [← hfin]
    exact streakWalk_le_toFinset_card _ _
  · intro k hk
    rw [← hfin]
    apply List.mem_toFinset.mpr
    exact streakWalk_mem _ _ k hk

/-- Full refinement of the walk on duplicate-free input: the walk equals the
maximal consecutive run recorded by the spec. -/
theorem streakWalk_eq_findGreatest {l : List Int} {d0 : Int} {rest : List Int}
    (hnd : l.Nodup) (hsd : sortDesc l = d0 :: rest) :
    streakWalk (d0 :: rest) d0 =
      Nat.findGreatest (fun n => ∀ k < n, d0 - (k : Int) ∈ l.toFinset) l.toFinset.card := by
  have hfin : (d0 :: rest).toFinset = l.toFinset :=
    List.toFinset_eq_of_perm _ _ (by rw [← hsd]; exact sortDesc_perm l)
  have hnd' : (d0 :: rest).Nodup := by
    rw [← hsd]
    exact ((sortDesc_perm l).nodup_iff).mpr hnd
  have hsorted : List.Sorted descRel (d0 :: rest) := by
    rw [← hsd]
    exact sortDesc_sorted l
  have hstrict : (d0 :: rest).Pairwise (fun a b : Int => b < a) :=
    (hsorted.and hnd').imp (fun h => lt_of_le_of_ne h.1 (Ne.symm h.2))
  symm
  rw [Nat.findGreatest_eq_iff]
  refine ⟨?_, ?_, ?_⟩
  · rw [← hfin]
    exact streakWalk_le_toFinset_card _ _
  · intro _ k hk
    rw [← hfin]
    exact List.mem_toFinset.mpr (streakWalk_mem _ _ k hk)
  · intro n hgt _ hP
    have hmem : d0 - (streakWalk (d0 :: rest) d0 : Int) ∈ l.toFinset := hP _ hgt
    rw [← hfin] at hmem
    exact streakWalk_stops _ _ hstrict (sortDesc_head_bound hsd) (List.mem_toFinset.mp hmem)

/-- On duplicate-free input the code computes exactly the spec's streak. -/
theorem calculate_streak_eq_spec {l : List Int} (t : Int)
    (hnd : l.Nodup) (hne : l ≠ []) :
    calculate_streak l t = spec_streak l.toFinset t := by
  obtain ⟨d0, rest, hsd⟩ : ∃ d0 rest, sortDesc l = d0 :: rest := by
    cases h : sortDesc l with
    | nil => exact absurd h (sortDesc_ne_nil hne)
    | cons a as => exact ⟨a, as, rfl⟩
  rw [calculate_streak_align t hne hsd, spec_streak_align t hsd]
  by_cases hg : d0 = t ∨ d0 = t - 1
  · rw [if_pos hg, if_pos hg, streakWalk_eq_findGreatest hnd hsd]
  · rw [if_neg hg, if_neg hg]

/-- On arbitrary input (duplicates allowed) the code never exceeds the spec's
streak of the underlying set. -/
theorem calculate_streak_le_spec (l : List Int) (t : Int) :
    calculate_streak l t ≤ spec_streak l.toFinset t := by
  rcases eq_or_ne l [] with rfl | hne
  · simp [calculate_streak]
  obtain ⟨d0, rest, hsd⟩ : ∃ d0 rest, sortDesc l = d0 :: rest := by
    cases h : sortDesc l with
    | nil => exact absurd h (sortDesc_ne_nil hne)
    | cons a as => exact ⟨a, as, rfl⟩
  rw [calculate_streak_align t hne hsd, spec_streak_align t hsd]
  by_cases hg : d0 = t ∨ d0 = t - 1
  · rw [if_pos hg, if_pos hg]
    exact streakWalk_le_findGreatest hsd
  · rw [if_neg hg, if_neg hg]

/-- The streak is positive exactly when the most recent date is today or
yesterday. -/
theorem calculate_streak_pos_iff (l : List Int) (t : Int) :
    0 < calculate_streak l t ↔
      (l.maximum = (t : WithBot Int) ∨ l.maximum = ((t - 1 : Int) : WithBot Int)) := by
  rcases eq_or_ne l [] with rfl | hne
  · simp [calculate_streak, List.maximum_nil]
  obtain ⟨d0, rest, hsd⟩ : ∃ d0 rest, sortDesc l = d0 :: rest := by
    cases h : sortDesc l with
    | nil => exact absurd h (sortDesc_ne_nil hne)
    | cons a as => exact ⟨a, as, rfl⟩
  have hmax := sortDesc_head_max hsd
  rw [calculate_streak_align t hne hsd, hmax]
  by_cases hg : d0 = t ∨ d0 = t - 1
  · rw [if_pos hg, streakWalk_cons_eq]
    constructor
    · intro _
      rcases hg with h | h
      · exact Or.inl (WithBot.coe_inj.mpr h)
      · exact Or.inr (WithBot.coe_inj.mpr h)
    · intro _
      omega
  · rw [if_neg hg]
    constructor
    · intro h
      exact absurd h (lt_irrefl 0)
    · intro h
      exfalso
      rcases h with h | h
      · exact hg (Or.inl (WithBot.coe_inj.mp h))
      · exact hg (Or.inr (WithBot.coe_inj.mp h))

/-- Duplicates never double-count: the streak is bounded by the number of
distinct dates in the input. -/
theorem calculate_streak_le_dedup_length (l : List Int) (t : Int) :
    calculate_streak l t ≤ l.dedup.length := by
  rcases eq_or_ne l [] with rfl | hne
  · simp [calculate_streak]
  obtain ⟨d0, rest, hsd⟩ : ∃ d0 rest, sortDesc l = d0 :: rest := by
    cases h : sortDesc l with
    | nil => exact absurd h (sortDesc_ne_nil hne)
    | cons a as => exact ⟨a, as, rfl⟩
  rw [calculate_streak_align t hne hsd, ← List.card_toFinset]
  have hfin : (d0 :: rest).toFinset = l.toFinset :=
    List.toFinset_eq_of_perm _ _ (by rw [← hsd]; exact sortDesc_perm l)
  by_cases hg : d0 = t ∨ d0 = t - 1
  · rw [if_pos hg, ← hfin]
    exact streakWalk_le_toFinset_card _ _
  · rw [if_neg hg]
    exact Nat.zero_le _

/-- `calculate_streak` only looks at the multiset of dates: permuting the
input list does not change the result. -/
theorem calculate_streak_perm {l l' : List Int} (t : Int) (hp : List.Perm l l') :
    calculate_streak l t = calculate_streak l' t := by
  have hsort : sortDesc l = sortDesc l' := by
    apply List.eq_of_perm_of_sorted ((sortDesc_perm l).trans (hp.trans (sortDesc_perm l').symm))
      (sortDesc_sorted l) (sortDesc_sorted l')
  have hemp : l.isEmpty = l'.isEmpty := by
    rcases eq_or_ne l [] with rfl | hne
    · rw [hp.symm.eq_nil]
    · have hne' : l' ≠ [] := by
        intro h
        rw [h] at hp
        exact hne hp.eq_nil
      obtain ⟨a, as, rfl⟩ := List.exists_cons_of_ne_nil hne
      obtain ⟨b, bs, rfl⟩ := List.exists_cons_of_ne_nil hne'
      rfl
  simp only [calculate_streak, hemp, hsort]

/-- On duplicated input the streak of the list is bounded by the streak of
its set of distinct dates. -/
theorem calculate_streak_le_dedup (l : List Int) (t : Int) :
    calculate_streak l t ≤ calculate_streak l.dedup t := by
  rcases eq_or_ne l [] with rfl | hne
  · simp [calculate_streak]
  have hne' : l.dedup ≠ [] := fun h => hne ((List.dedup_eq_nil l).mp h)
  have hfin : l.dedup.toFinset = l.toFinset := by
    apply List.toFinset.ext_iff.mpr
    intro x
    exact List.mem_dedup
  calc calculate_streak l t ≤ spec_streak l.toFinset t := calculate_streak_le_spec l t
    _ = spec_streak l.dedup.toFinset t := by rw [hfin]
    _ = calculate_streak l.dedup t := (calculate_streak_eq_spec t (List.nodup_dedup l) hne').symm

theorem streakWalk_cons_of_eq {d c : Int} (rest : List Int) (h : d = c) :
    streakWalk (d :: rest) c = streakWalk rest (c - 1) + 1 := by
  subst h
  exact streakWalk_cons_eq d rest

/-! ### Store lemmas -/

theorem habitMatches_eq_true {user_id : Int} {habit_name : String} {h : HabitRow} :
    habitMatches user_id habit_name h = true ↔
      h.user_id = user_id ∧ h.habit_name = habit_name := by
  simp [habitMatches]

theorem any_habit_iff {db : DB} {user_id : Int} {habit_name : String} :
    db.habits.any (habitMatches user_id habit_name) = true ↔
      habitExists db user_id habit_name := by
  simp only [List.any_eq_true, habitExists, habitMatches_eq_true]

theorem pairCount_ne_zero_iff (db : DB) (habit_id : Nat) (date : Int) :
    pairCount db habit_id date ≠ 0 ↔
      db.completions.any
        (fun c => c.habit_id == habit_id && c.completion_date == date) = true := by
  rw [pairCount, Ne, List.length_eq_zero, List.any_eq_true]
  constructor
  · intro hne
    obtain ⟨x, hx⟩ := List.exists_mem_of_ne_nil _ hne
    exact ⟨x, (List.mem_filter.mp hx).1, (List.mem_filter.mp hx).2⟩
  · rintro ⟨x, hxl, hpx⟩ hnil
    have hmem : x ∈ db.completions.filter
        (fun c => c.habit_id == habit_id && c.completion_date == date) :=
      List.mem_filter.mpr ⟨hxl, hpx⟩
    rw [hnil] at hmem
    exact absurd hmem (List.not_mem_nil x)

theorem add_habit_to_db_of_not_exists {db : DB} {user_id : Int} {habit_name : String}
    (t : Int) (h : ¬ habitExists db user_id habit_name) :
    add_habit_to_db db user_id habit_name t =
      ({ habits := db.habits ++ [⟨db.nextHabitId, user_id, habit_name, t⟩],
         completions := db.completions,
         nextHabitId := db.nextHabitId + 1,
         nextCompletionId := db.nextCompletionId }, true) := by
  rw [add_habit_to_db, if_neg]
  intro hany
  exact h (any_habit_iff.mp hany)

theorem add_habit_to_db_of_exists {db : DB} {user_id : Int} {habit_name : String}
    (t : Int) (h : habitExists db user_id habit_name) :
    add_habit_to_db db user_id habit_name t = (db, false) := by
  rw [add_habit_to_db, if_pos (any_habit_iff.mpr h)]

theorem get_user_habits_snoc (habits : List HabitRow) (completions : List CompletionRow)
    (nh nc : Nat) (row : HabitRow) (user_id : Int) :
    get_user_habits ⟨habits ++ [row], completions, nh, nc⟩ user_id
      = get_user_habits ⟨habits, completions, nh, nc⟩ user_id ++
          (if row.user_id == user_id then
            [(row.id, row.habit_name, row.created_date)] else []) := by
  simp only [get_user_habits, List.filter_append]
  by_cases h : row.user_id == user_id
  · simp [List.filter, h]
  · simp only [Bool.not_eq_true] at h
    simp [List.filter, h]

/-! ### Aggregation lemmas -/

theorem foldl_stats_split {α : Type} (f g : α → Nat) (l : List α) :
    ∀ a b : Nat,
      l.foldl (fun acc x => (acc.1 + f x, max acc.2 (g x))) (a, b)
        = (a + (l.map f).sum, (l.map g).foldl max b) := by
  induction l with
  | nil => intro a b; simp
  | cons x xs ih =>
    intro a b
    simp only [List.foldl_cons, List.map_cons, List.sum_cons]
    rw [ih]
    congr 1
    omega

theorem le_foldl_max_init (l : List Nat) : ∀ b : Nat, b ≤ l.foldl max b := by
  induction l with
  | nil => intro b; exact le_refl b
  | cons x xs ih =>
    intro b
    exact le_trans (le_max_left b x) (ih (max b x))

theorem foldl_max_le_of_mem (l : List Nat) :
    ∀ (b x : Nat), x ∈ l → x ≤ l.foldl max b := by
  induction l with
  | nil => intro b x hx; cases hx
  | cons y ys ih =>
    intro b x hx
    rcases List.mem_cons.mp hx with rfl | hmem
    · exact le_trans (le_max_right b x) (le_foldl_max_init ys (max b x))
    · exact ih (max b y) x hmem

theorem foldl_max_cases (l : List Nat) :
    ∀ b : Nat, l.foldl max b = b ∨ l.foldl max b ∈ l := by
  induction l with
  | nil => intro b; exact Or.inl rfl
  | cons x xs ih =>
    intro b
    simp only [List.foldl_cons]
    rcases ih (max b x) with h | h
    · rcases max_choice b x with hb | hx
      · exact Or.inl (h.trans hb)
      · exact Or.inr (List.mem_cons.mpr (Or.inl (h.trans hx)))
    · exact Or.inr (List.mem_cons.mpr (Or.inr h))

/-! ## The claims -/

/-- C1: for every non-empty list of distinct calendar dates and a fixed
current date `today`, `calculate_streak` returns the value of the reference
algorithm of spec §4.2 (`spec_streak`): 0 if the most recent date is neither
`today` nor `today - 1`, otherwise the length of the maximal run of
consecutive daily dates starting from the cursor (today if the most recent
date is today, else yesterday) and walking backwards one day at a time,
stopping at the first gap. -/
theorem claim_C1_streak_refines_spec (l : List Int) (today : Int)
    (hne : l ≠ []) (hnd : l.Nodup) :
    calculate_streak l today = spec_streak l.toFinset today :=
  calculate_streak_eq_spec today hnd hne

theorem claim_C1_witness :
    (([(5 : Int), 4] : List Int) ≠ [] ∧ ([(5 : Int), 4] : List Int).Nodup) ∧
      calculate_streak [5, 4] 5 = spec_streak ([(5 : Int), 4] : List Int).toFinset 5 :=
  ⟨⟨by decide, by decide⟩,
    claim_C1_streak_refines_spec [5, 4] 5 (by decide) (by decide)⟩

/-- C2 counterexample: with today = 10, the input `[10, 10, 9]` — the date
set {today, yesterday} with today duplicated — yields streak 1, while the
distinct sorted set `[10, 9]` of the same dates yields streak 2.  A
duplicated element changes `calculate_streak`, because the walk compares the
duplicate against the already-decremented cursor and breaks there, so the
claim as stated is false. -/
theorem claim_C2_counterexample :
    calculate_streak [10, 10, 9] 10 = 1 ∧ calculate_streak [10, 9] 10 = 2 ∧
      calculate_streak [10, 10, 9] 10 ≠ calculate_streak [10, 9] 10 :=
  ⟨by decide, by decide, by decide⟩

/-- C2 (amended): `calculate_streak` returns the same value on any
permutation of the input list, and duplicate dates are never double-counted:
the result never exceeds the result on the distinct set of those dates, nor
the number of distinct dates.  (A duplicated date can, however, strictly
lower the result — see the counterexample — so full invariance under
duplication fails.) -/
theorem claim_C2_amended (l l' : List Int) (today : Int) :
    (List.Perm l l' → calculate_streak l today = calculate_streak l' today) ∧
      calculate_streak l today ≤ calculate_streak l.dedup today ∧
      calculate_streak l today ≤ l.dedup.length :=
  ⟨fun hp => calculate_streak_perm today hp,
   calculate_streak_le_dedup l today,
   calculate_streak_le_dedup_length l today⟩

theorem claim_C2_witness :
    calculate_streak [4, 10, 9] 10 = calculate_streak [10, 9, 4] 10 ∧
      calculate_streak [4, 10, 9] 10 ≤ calculate_streak ([4, 10, 9] : List Int).dedup 10 ∧
      calculate_streak [4, 10, 9] 10 ≤ ([4, 10, 9] : List Int).dedup.length := by
  obtain ⟨h1, h2, h3⟩ := claim_C2_amended [4, 10, 9] [10, 9, 4] 10
  exact ⟨h1 (by decide), h2, h3⟩

/-- C6: with `today` the fixed current date, `calculate_streak` maps
{today} to 1, {today-1} to 1, {today-2} to 0, {} to 0,
{today, today-1, today-2, today-3} to 4, and {today, today-2} to 1. -/
theorem claim_C6_edge_cases (t : Int) :
    calculate_streak [t] t = 1 ∧
    calculate_streak [t - 1] t = 1 ∧
    calculate_streak [t - 2] t = 0 ∧
    calculate_streak [] t = 0 ∧
    calculate_streak [t, t - 1, t - 2, t - 3] t = 4 ∧
    calculate_streak [t, t - 2] t = 1 := by
  have hs1 : sortDesc [t] = [t] := rfl
  have hs1y : sortDesc [t - 1] = [t - 1] := rfl
  have hs1o : sortDesc [t - 2] = [t - 2] := rfl
  have hs4 : sortDesc [t, t - 1, t - 2, t - 3] = [t, t - 1, t - 2, t - 3] := by
    apply List.Sorted.insertionSort_eq
    simp only [List.sorted_cons, descRel, List.mem_cons, List.mem_singleton,
      List.not_mem_nil, List.sorted_nil]
    refine ⟨?_, ?_, ?_, by simp⟩ <;> intro b hb <;>
      rcases hb with rfl | rfl | rfl | h <;> first | omega | cases h
  have hs2 : sortDesc [t, t - 2] = [t, t - 2] := by
    apply List.Sorted.insertionSort_eq
    simp only [List.sorted_cons, descRel, List.mem_singleton, List.sorted_nil]
    refine ⟨?_, by simp⟩
    intro b hb
    subst hb
    omega
  refine ⟨?_, ?_, ?_, rfl, ?_, ?_⟩
  · rw [calculate_streak_align t (by simp) hs1, if_pos (Or.inl rfl),
      streakWalk_cons_of_eq _ rfl]
    rfl
  · rw [calculate_streak_align t (by simp) hs1y, if_pos (Or.inr rfl),
      streakWalk_cons_of_eq _ rfl]
    rfl
  · rw [calculate_streak_align t (by simp) hs1o, if_neg (by omega)]
  · rw [calculate_streak_align t (by simp) hs4, if_pos (Or.inl rfl),
      streakWalk_cons_of_eq _ rfl, streakWalk_cons_of_eq _ (by ring),
      streakWalk_cons_of_eq _ (by ring), streakWalk_cons_of_eq _ (by ring)]
    rfl
  · rw [calculate_streak_align t (by simp) hs2, if_pos (Or.inl rfl),
      streakWalk_cons_of_eq _ rfl, streakWalk_cons_ne _ (by omega)]

/-- C10: for every list of dates and fixed current date, the streak (a `Nat`,
hence non-negative) never exceeds the number of distinct dates in the input,
and it is strictly positive exactly when the input is non-empty with its most
recent (maximum) date equal to today or yesterday. -/
theorem claim_C10_bounds (l : List Int) (today : Int) :
    calculate_streak l today ≤ l.dedup.length ∧
      (0 < calculate_streak l today ↔
        (l.maximum = (today : WithBot Int) ∨
          l.maximum = ((today - 1 : Int) : WithBot Int))) :=
  ⟨calculate_streak_le_dedup_length l today, calculate_streak_pos_iff l today⟩

/-- C3 (code bug at a failing input): starting from a store holding one
habit (id 1, owner 7, name "Exercise") and one completion for it,
`delete_habit_from_db` reports a deletion and the habit disappears from
`get_user_habits`, but `get_habit_completions` on the old id still returns
the old date.  The spec requires the delete to remove, atomically, all the
habit's completions; the code never runs `PRAGMA foreign_keys = ON`, so the
declared `ON DELETE CASCADE` is inert and the completion row is orphaned. -/
theorem claim_C3_delete_orphans_completions :
    (delete_habit_from_db ⟨[⟨1, 7, "Exercise", 100⟩], [⟨1, 1, 100⟩], 2, 2⟩
        7 "Exercise").2 = true ∧
    get_user_habits (delete_habit_from_db ⟨[⟨1, 7, "Exercise", 100⟩], [⟨1, 1, 100⟩], 2, 2⟩
        7 "Exercise").1 7 = [] ∧
    get_habit_completions (delete_habit_from_db ⟨[⟨1, 7, "Exercise", 100⟩], [⟨1, 1, 100⟩], 2, 2⟩
        7 "Exercise").1 1 = [100] := by
  refine ⟨by decide, by decide, by decide⟩

/-- C4: `complete_habit_in_db` fails with "Habit not found" when the owner
has no habit of that name; when the name resolves to a habit row, it fails
with "Already completed" if a completion for that (habit, date) already
exists, otherwise it succeeds and inserts exactly one completion for that
date (the (habit, date) count goes to 1, the habit's completion count rises
by one, and every other (habit, date) count is untouched); every failure
leaves the store unchanged, and the operation is a total function — no
exception escapes. -/
theorem claim_C4_record_completion (db : DB) (user_id : Int) (habit_name : String)
    (date : Int) :
    ((¬ habitExists db user_id habit_name) →
        complete_habit_in_db db user_id habit_name date = (db, false, "Habit not found")) ∧
    (habitExists db user_id habit_name →
        ∃ h, db.habits.find? (habitMatches user_id habit_name) = some h) ∧
    (∀ h, db.habits.find? (habitMatches user_id habit_name) = some h →
      (pairCount db h.id date ≠ 0 →
          complete_habit_in_db db user_id habit_name date = (db, false, "Already completed")) ∧
      (pairCount db h.id date = 0 →
          (complete_habit_in_db db user_id habit_name date).2 = (true, "Completed") ∧
          pairCount (complete_habit_in_db db user_id habit_name date).1 h.id date = 1 ∧
          completionCount (complete_habit_in_db db user_id habit_name date).1 h.id
            = completionCount db h.id + 1 ∧
          ∀ (hid2 : Nat) (d2 : Int), ¬ (hid2 = h.id ∧ d2 = date) →
            pairCount (complete_habit_in_db db user_id habit_name date).1 hid2 d2
              = pairCount db hid2 d2)) ∧
    ((complete_habit_in_db db user_id habit_name date).2.1 = false →
        (complete_habit_in_db db user_id habit_name date).1 = db) := by
  refine ⟨?_, ?_, ?_, ?_⟩
  · intro hnone
    have hfind : db.habits.find? (habitMatches user_id habit_name) = none := by
      rw [List.find?_eq_none]
      intro x hx hmatch
      exact hnone ⟨x, hx, habitMatches_eq_true.mp hmatch⟩
    simp only [complete_habit_in_db, hfind]
  · rintro ⟨x, hx, hu, hn⟩
    have hsome : (db.habits.find? (habitMatches user_id habit_name)).isSome := by
      rw [List.find?_isSome]
      exact ⟨x, hx, habitMatches_eq_true.mpr ⟨hu, hn⟩⟩
    obtain ⟨h, hh⟩ := Option.isSome_iff_exists.mp hsome
    exact ⟨h, hh⟩
  · intro h hfind
    constructor
    · intro hp
      have hany := (pairCount_ne_zero_iff db h.id date).mp hp
      simp only [complete_habit_in_db, hfind, hany, if_true]
    · intro hp0
      have hany : ¬ (db.completions.any
          (fun c => c.habit_id == h.id && c.completion_date == date) = true) := by
        intro hany
        exact absurd hp0 ((pairCount_ne_zero_iff db h.id date).mpr hany)
      simp only [complete_habit_in_db, hfind, if_neg hany]
      refine ⟨by trivial, ?_, ?_, ?_⟩
      · simp only [pairCount, List.filter_append, List.length_append]
        rw [show (db.completions.filter
            (fun c => c.habit_id == h.id && c.completion_date == date)).length = 0 from hp0]
        simp [List.filter_cons]
      · simp only [completionCount, List.filter_append, List.length_append]
        simp [List.filter_cons]
      · intro hid2 d2 hne
        simp only [pairCount, List.filter_append, List.length_append]
        have hrow : ((⟨db.nextCompletionId, h.id, date⟩ : CompletionRow).habit_id == hid2 &&
            (⟨db.nextCompletionId, h.id, date⟩ : CompletionRow).completion_date == d2) = false := by
          simp only [Bool.and_eq_false_eq_eq_false_or_eq_false, beq_eq_false_iff_ne, ne_eq]
          by_cases h1 : hid2 = h.id
          · subst h1
            right
            intro hd2
            exact hne ⟨rfl, hd2.symm⟩
          · left
            intro hh
            exact h1 hh.symm
        simp [List.filter_cons, hrow]
  · cases hfind : db.habits.find? (habitMatches user_id habit_name) with
    | none =>
      intro _
      simp only [complete_habit_in_db, hfind]
    | some h =>
      by_cases hany : db.completions.any
          (fun c => c.habit_id == h.id && c.completion_date == date) = true
      · intro _
        simp only [complete_habit_in_db, hfind, hany, if_true]
      · simp only [complete_habit_in_db, hfind, if_neg hany]
        intro hfalse
        cases hfalse

theorem claim_C4_witness :
    complete_habit_in_db ⟨[⟨1, 7, "Run", 0⟩], [], 2, 1⟩ 7 "Walk" 5
        = (⟨[⟨1, 7, "Run", 0⟩], [], 2, 1⟩, false, "Habit not found") ∧
      (complete_habit_in_db ⟨[⟨1, 7, "Run", 0⟩], [], 2, 1⟩ 7 "Run" 5).2
        = (true, "Completed") ∧
      pairCount (complete_habit_in_db ⟨[⟨1, 7, "Run", 0⟩], [], 2, 1⟩ 7 "Run" 5).1 1 5 = 1 := by
  refine ⟨?_, ?_, ?_⟩
  · exact (claim_C4_record_completion ⟨[⟨1, 7, "Run", 0⟩], [], 2, 1⟩ 7 "Walk" 5).1 (by decide)
  · exact (((claim_C4_record_completion ⟨[⟨1, 7, "Run", 0⟩], [], 2, 1⟩ 7 "Run" 5).2.2.1
      ⟨1, 7, "Run", 0⟩ (by decide)).2 (by decide)).1
  · exact (((claim_C4_record_completion ⟨[⟨1, 7, "Run", 0⟩], [], 2, 1⟩ 7 "Run" 5).2.2.1
      ⟨1, 7, "Run", 0⟩ (by decide)).2 (by decide)).2.1

/-- C5: `add_habit_to_db` succeeds when the owner has no habit of that name,
inserting one new habit row whose creation date is today and keeping every
existing row (never overwriting), so the owner's habit count rises by one;
when a habit of that name already exists it fails without raising and
returns the store unchanged.  In particular, adding the same name twice
starting from a user with no habits leaves the second call reporting
failure and the owner's habit count at 1. -/
theorem claim_C5_add_habit (db : DB) (user_id : Int) (habit_name : String) (t t2 : Int) :
    ((¬ habitExists db user_id habit_name) →
        (add_habit_to_db db user_id habit_name t).2 = true ∧
        habitCount (add_habit_to_db db user_id habit_name t).1 user_id
          = habitCount db user_id + 1 ∧
        (∃ h ∈ (add_habit_to_db db user_id habit_name t).1.habits,
            h.user_id = user_id ∧ h.habit_name = habit_name ∧ h.created_date = t) ∧
        (∀ h ∈ db.habits, h ∈ (add_habit_to_db db user_id habit_name t).1.habits)) ∧
    (habitExists db user_id habit_name →
        add_habit_to_db db user_id habit_name t = (db, false)) ∧
    (get_user_habits db user_id = [] →
        (add_habit_to_db (add_habit_to_db db user_id habit_name t).1 user_id habit_name t2).2
            = false ∧
        habitCount (add_habit_to_db (add_habit_to_db db user_id habit_name t).1
            user_id habit_name t2).1 user_id = 1) := by
  refine ⟨?_, fun hex => add_habit_to_db_of_exists t hex, ?_⟩
  · intro hnex
    rw [add_habit_to_db_of_not_exists t hnex]
    refine ⟨rfl, ?_, ?_, ?_⟩
    · simp [habitCount, get_user_habits, List.filter_append, List.filter_cons]
    · exact ⟨⟨db.nextHabitId, user_id, habit_name, t⟩, by simp, rfl, rfl, rfl⟩
    · intro h hmem
      exact List.mem_append.mpr (Or.inl hmem)
  · intro h0
    have hnex : ¬ habitExists db user_id habit_name := by
      rintro ⟨h, hmem, hu, hn⟩
      have hin : (h.id, h.habit_name, h.created_date) ∈ get_user_habits db user_id :=
        List.mem_map.mpr ⟨h, List.mem_filter.mpr ⟨hmem, by simp [hu]⟩, rfl⟩
      rw [h0] at hin
      exact absurd hin (List.not_mem_nil _)
    have hd1 : (add_habit_to_db db user_id habit_name t).1
        = ⟨db.habits ++ [⟨db.nextHabitId, user_id, habit_name, t⟩],
           db.completions, db.nextHabitId + 1, db.nextCompletionId⟩ := by
      rw [add_habit_to_db_of_not_exists t hnex]
    have hex1 : habitExists
        (⟨db.habits ++ [⟨db.nextHabitId, user_id, habit_name, t⟩],
          db.completions, db.nextHabitId + 1, db.nextCompletionId⟩ : DB)
        user_id habit_name :=
      ⟨⟨db.nextHabitId, user_id, habit_name, t⟩, by simp, rfl, rfl⟩
    rw [hd1, add_habit_to_db_of_exists t2 hex1]
    have hfilter : db.habits.filter (fun h => h.user_id == user_id) = [] := by
      have hmapnil := h0
      rw [get_user_habits] at hmapnil
      exact List.map_eq_nil_iff.mp hmapnil
    refine ⟨rfl, ?_⟩
    simp [habitCount, get_user_habits, List.filter_append, List.filter_cons, hfilter]

theorem claim_C5_witness :
    get_user_habits ⟨[], [], 1, 1⟩ 7 = [] ∧
      (add_habit_to_db (add_habit_to_db ⟨[], [], 1, 1⟩ 7 "Run" 3).1 7 "Run" 4).2 = false ∧
      habitCount (add_habit_to_db (add_habit_to_db ⟨[], [], 1, 1⟩ 7 "Run" 3).1 7 "Run" 4).1 7
        = 1 :=
  ⟨by decide, (claim_C5_add_habit ⟨[], [], 1, 1⟩ 7 "Run" 3 4).2.2 (by decide)⟩

/-- C7: the statistics query computes — fresh from the store, with no cached
value — the habit count as the length of the user's habit list, the total
completions as the sum of the per-habit completion counts, and the best
streak as the maximum of the per-habit streaks (0 when there are no
habits): every per-habit streak is bounded by it and it is 0 or attained by
some habit. -/
theorem claim_C7_stats (db : DB) (user_id : Int) (today : Int) :
    (stats_core db user_id today).1 = (get_user_habits db user_id).length ∧
    (stats_core db user_id today).2.1
      = ((get_user_habits db user_id).map
          (fun hab => (get_habit_completions db hab.1).length)).sum ∧
    (∀ hab ∈ get_user_habits db user_id,
        calculate_streak (get_habit_completions db hab.1) today
          ≤ (stats_core db user_id today).2.2) ∧
    ((stats_core db user_id today).2.2 = 0 ∨
      ∃ hab ∈ get_user_habits db user_id,
        calculate_streak (get_habit_completions db hab.1) today
          = (stats_core db user_id today).2.2) := by
  have hcore : stats_core db user_id today
      = ((get_user_habits db user_id).length,
         ((get_user_habits db user_id).map
           (fun hab => (get_habit_completions db hab.1).length)).sum,
         ((get_user_habits db user_id).map
           (fun hab => calculate_streak (get_habit_completions db hab.1) today)).foldl
             max 0) := by
    simp only [stats_core]
    rw [foldl_stats_split (fun hab : Nat × String × Int => (get_habit_completions db hab.1).length)
      (fun hab : Nat × String × Int => calculate_streak (get_habit_completions db hab.1) today)
      (get_user_habits db user_id) 0 0]
    simp
  rw [hcore]
  refine ⟨rfl, rfl, ?_, ?_⟩
  · intro hab hmem
    exact foldl_max_le_of_mem _ 0 _ (List.mem_map_of_mem _ hmem)
  · rcases foldl_max_cases ((get_user_habits db user_id).map
      (fun hab => calculate_streak (get_habit_completions db hab.1) today)) 0 with h | h
    · exact Or.inl h
    · obtain ⟨hab, hm, heq⟩ := List.mem_map.mp h
      exact Or.inr ⟨hab, hm, heq⟩

theorem claim_C7_witness :
    (stats_core ⟨[⟨1, 7, "Run", 90⟩], [⟨1, 1, 100⟩], 2, 2⟩ 7 100).1
        = (get_user_habits ⟨[⟨1, 7, "Run", 90⟩], [⟨1, 1, 100⟩], 2, 2⟩ 7).length ∧
      calculate_streak
          (get_habit_completions ⟨[⟨1, 7, "Run", 90⟩], [⟨1, 1, 100⟩], 2, 2⟩ 1) 100
        ≤ (stats_core ⟨[⟨1, 7, "Run", 90⟩], [⟨1, 1, 100⟩], 2, 2⟩ 7 100).2.2 :=
  ⟨(claim_C7_stats ⟨[⟨1, 7, "Run", 90⟩], [⟨1, 1, 100⟩], 2, 2⟩ 7 100).1,
   (claim_C7_stats ⟨[⟨1, 7, "Run", 90⟩], [⟨1, 1, 100⟩], 2, 2⟩ 7 100).2.2.1
     (1, "Run", 90) (by decide)⟩

/-- C8: when the text-generation call fails or times out, the motivation
operation returns the deterministic canned fallback selected by the
streak-length bucket (streak ≥ 7, streak ≥ 3, otherwise) — independent of
the habit name and the completion total — and the open-question path falls
back to the fixed apology string; neither path retries (each consumes the
single service outcome once) nor propagates the raw fault. -/
theorem claim_C8_fallbacks (habit_name habit_name2 user_message habits_summary : String)
    (streak total_completions total2 : Nat) :
    generate_motivation habit_name streak total_completions AIOutcome.failure
        = motivationFallback (streakBucket streak) streak ∧
    generate_motivation habit_name streak total_completions AIOutcome.failure
        = generate_motivation habit_name2 streak total2 AIOutcome.failure ∧
    ai_chat_assistant user_message habits_summary AIOutcome.failure = aiChatApology := by
  refine ⟨?_, rfl, rfl⟩
  by_cases h7 : streak ≥ 7
  · simp [generate_motivation, motivationFallback, streakBucket, h7]
  · by_cases h3 : streak ≥ 3
    · simp [generate_motivation, motivationFallback, streakBucket, h7, h3]
    · simp [generate_motivation, motivationFallback, streakBucket, h7, h3]

/-- C9: an `/addhabit` request with an empty habit name — which the chat
platform delivers as an empty argument list, since `context.args` is the
message text split on whitespace — is rejected with the guidance message and
causes no state change: the store is returned untouched, so no habit row is
inserted and the owner's habit count is unchanged. -/
theorem claim_C9_empty_name_rejected (db : DB) (user_id : Int) (args : List String)
    (today : Int) (hempty : args = []) :
    add_habit db user_id args today = (db, addHabitGuidance) ∧
    habitCount (add_habit db user_id args today).1 user_id = habitCount db user_id := by
  subst hempty
  exact ⟨rfl, rfl⟩

theorem claim_C9_witness :
    add_habit ⟨[], [], 1, 1⟩ 7 [] 0 = ((⟨[], [], 1, 1⟩ : DB), addHabitGuidance) ∧
      habitCount (add_habit ⟨[], [], 1, 1⟩ 7 [] 0).1 7 = habitCount ⟨[], [], 1, 1⟩ 7 :=
  claim_C9_empty_name_rejected ⟨[], [], 1, 1⟩ 7 [] 0 rfl
